import Mathlib

/-!
Verification of the ZOS live voice-assistant orchestrator.

Shallow embedding of the source: the base64 audio helpers (`decode`, `encode`),
the PCM16 capture encoder (`createBlob`), the inbound-audio decoder
(`decodeAudioData`), the `LiveAssistant` message handler (`onmessage`) with its
playback scheduling, transcript accumulation and tool dispatch, the resource
teardown (`stopMicrophone`, `stopAudioPlayback`, `handleStopListening`), and the
host capability `handleOpenAppByName`.

Machine-level effects (starting/stopping audio sources, sending tool responses,
releasing devices) are recorded in an explicit `Effect` trace; mutable refs of
the component become fields of `AssistantState`; time (`AudioContext.currentTime`)
is an explicit rational parameter.
-/

set_option maxRecDepth 8192

namespace ZOS

/-! ### Base64 helpers (`decode` / `encode` in the source)

The source builds a binary string from byte char-codes and calls `btoa`, and
inverts with `atob` plus `charCodeAt`.  We model strings at the char-list level
and `btoa`/`atob` by the standard base64 alphabet. -/

def b64alphabet : List Char :=
  String.toList "ABCDEFGHIJKLMNOPQRSTUVWXYZabcdefghijklmnopqrstuvwxyz0123456789+/"

def b64tbl (n : Nat) : Char := b64alphabet.getD n '?'

def b64inv (c : Char) : Nat := b64alphabet.indexOf c

def b64encodeBytes : List Nat → List Char
  | [] => []
  | [a] => [b64tbl (a / 4), b64tbl (a % 4 * 16), '=', '=']
  | [a, b] => [b64tbl (a / 4), b64tbl (a % 4 * 16 + b / 16), b64tbl (b % 16 * 4), '=']
  | a :: b :: c :: rest =>
      b64tbl (a / 4) :: b64tbl (a % 4 * 16 + b / 16) :: b64tbl (b % 16 * 4 + c / 64)
        :: b64tbl (c % 64) :: b64encodeBytes rest

def b64decodeBytes : List Char → List Nat
  | c0 :: c1 :: c2 :: c3 :: rest =>
      if c2 = '=' then [b64inv c0 * 4 + b64inv c1 / 16]
      else if c3 = '=' then
        [b64inv c0 * 4 + b64inv c1 / 16, b64inv c1 % 16 * 16 + b64inv c2 / 4]
      else
        (b64inv c0 * 4 + b64inv c1 / 16)
          :: (b64inv c1 % 16 * 16 + b64inv c2 / 4)
          :: (b64inv c2 % 4 * 64 + b64inv c3)
          :: b64decodeBytes rest
  | _ => []

/-- Model of `btoa`: char codes of the binary string, base64-encoded. -/

def btoa (binary : List Char) : List Char := b64encodeBytes (binary.map Char.toNat)

/-- Model of `atob`: base64-decode and view each byte as a char. -/

def atob (base64 : List Char) : List Char := (b64decodeBytes base64).map Char.ofNat

/-- Source `decode(base64)`: `atob` then `charCodeAt` per char, yielding bytes. -/

def decode (base64 : List Char) : List Nat := (atob base64).map Char.toNat

/-- Source `encode(bytes)`: `String.fromCharCode` per byte then `btoa`. -/

def encode (bytes : List Nat) : List Char := btoa (bytes.map Char.ofNat)

/-! ### Capture-frame encoding (`createBlob` in the source)

The source writes `int16[i] = data[i] * 32768` into an `Int16Array`: the number
is truncated toward zero and then wrapped into the signed 16-bit range (the
JavaScript `ToInt16` conversion).  Sample values are modelled as rationals. -/

/-- Truncation toward zero of a rational, as JavaScript number-to-integer
conversion performs before the 16-bit wrap (T-division of numerator by
denominator truncates toward zero). -/

def ratTrunc (q : ℚ) : Int := q.num.tdiv q.den

/-- The `ToInt16` wrap applied on assignment into an `Int16Array`. -/

def toInt16 (n : Int) : Int :=
  let m := n % 65536
  if m < 32768 then m else m - 65536

/-- One sample of `createBlob`: scale by 32768 (no clamping) and store as
a signed 16-bit integer. -/

def createBlobSample (x : ℚ) : Int := toInt16 (ratTrunc (x * 32768))

structure BlobModel where
  data : List Int
  mimeType : String
deriving DecidableEq

/-- Source `createBlob(data)`: per-sample scaling into an `Int16Array`, wrapped
in a payload tagged `audio/pcm;rate=16000` (byte serialisation of the

`Int16Array` buffer is left at the level of the integer samples). -/

def createBlob (data : List ℚ) : BlobModel :=
  ⟨data.map createBlobSample, "audio/pcm;rate=16000"⟩

/-! ### Inbound audio decoding (`decodeAudioData` in the source)

`decodeAudioData` views the byte buffer as an `Int16Array` (two bytes per
sample), computes `frameCount = dataInt16.length / numChannels` and creates an
`AudioBuffer`; the buffer's duration, which drives the scheduler, is
`frameCount / sampleRate`. -/

structure AudioBufferModel where
  frameCount : Nat
  sampleRate : Nat
deriving DecidableEq

def decodeAudioData (data : List Nat) (sampleRate numChannels : Nat) : AudioBufferModel :=
  ⟨data.length / 2 / numChannels, sampleRate⟩

def bufferDuration (b : AudioBufferModel) : ℚ := (b.frameCount : ℚ) / (b.sampleRate : ℚ)

/-! ### The `LiveAssistant` state machine

Mutable refs of the component become fields of `AssistantState`; acquired
resources (media stream, script processor, media-stream source, session
promise) are tracked as booleans, the two `AudioContext` refs as
`Option CtxState` (never nulled once created, so `close` only changes their
state).  Imperative effects are logged in an `Effect` trace. -/

inductive Speaker
  | user
  | agent
  | system
deriving DecidableEq

structure TranscriptionEntry where
  speaker : Speaker
  text : String
deriving DecidableEq

inductive AssistantStatus
  | idle
  | listening
  | processing
deriving DecidableEq

inductive CtxState
  | running
  | closed
deriving DecidableEq

structure Handle where
  start : ℚ
  dur : ℚ
deriving DecidableEq

inductive Effect
  | startSource (h : Handle)
  | stopSource (h : Handle)
  | sendToolResponse (id name result : String)
  | callOpenApp (appName : String)
  | callCloseApp
  | callGetAppList
  | stopTrack
  | disconnectProcessor
  | disconnectSource
  | closeSession
  | closeInputCtx
  | closeOutputCtx
deriving DecidableEq

/-- Arguments of a tool call; `openApp` reads `args.appName`. -/

structure FnArgs where
  appName : String
deriving DecidableEq

structure FunctionCall where
  id : String
  name : String
  args : FnArgs
deriving DecidableEq

/-- The fields of `message.serverContent` the handler reads.  `modelTurnAudio`
models `modelTurn?.parts[0]?.inlineData.data`, a base64 string. -/

structure ServerContent where
  turnComplete : Bool
  interrupted : Bool
  inputTranscription : Option String
  outputTranscription : Option String
  modelTurnAudio : Option (List Char)
deriving DecidableEq

structure LiveServerMessage where
  serverContent : Option ServerContent
  toolCall : Option (List FunctionCall)
deriving DecidableEq

def emptyContent : ServerContent := ⟨false, false, none, none, none⟩

def turnCompleteMsg : LiveServerMessage := ⟨some ⟨true, false, none, none, none⟩, none⟩

def interruptedMsg : LiveServerMessage := ⟨some ⟨false, true, none, none, none⟩, none⟩

def audioMsg (data : List Char) : LiveServerMessage := ⟨some ⟨false, false, none, none, some data⟩, none⟩

def transcriptMsg (input output : Option String) : LiveServerMessage :=
  ⟨some ⟨false, false, input, output, none⟩, none⟩

def toolMsg (fcs : List FunctionCall) : LiveServerMessage := ⟨none, some fcs⟩

/-- The host capability surface handed to the component as props
(`openApp`, `closeApp`, `getAppList`). -/

structure Host where
  openApp : String → String
  closeApp : String
  getAppList : String

structure AssistantState where
  assistantStatus : AssistantStatus
  currentInputTranscription : String
  currentOutputTranscription : String
  transcriptionHistory : List TranscriptionEntry
  nextStartTime : ℚ
  outputSources : List Handle
  sessionActive : Bool
  mediaStream : Bool
  scriptProcessor : Bool
  mediaStreamSource : Bool
  inputCtx : Option CtxState
  outputCtx : Option CtxState
deriving DecidableEq

/-- The component before `handleStartListening` ever ran: all refs null. -/

def initialState : AssistantState :=
  ⟨.idle, "", "", [], 0, [], false, false, false, false, none, none⟩

/-- The component inside a live session: contexts created, media acquired,
session promise set, playback cursor at 0, no queued playback. -/

def startedState : AssistantState :=
  ⟨.listening, "", "", [], 0, [], true, true, true, true, some .running, some .running⟩

/-- Source `stopAudioPlayback`: if the output context exists, stop every source
in the active set, clear the set and reset the cursor to 0. -/

def stopAudioPlayback (s : AssistantState) : AssistantState × List Effect :=
  if s.outputCtx.isSome then
    ({ s with outputSources := [], nextStartTime := 0 }, s.outputSources.map Effect.stopSource)
  else (s, [])

/-- Source `stopMicrophone`: release stream tracks, script processor and
media-stream source if held, nulling each ref. -/

def stopMicrophone (s : AssistantState) : AssistantState × List Effect :=
  let e1 := if s.mediaStream then [Effect.stopTrack] else []
  let e2 := if s.scriptProcessor then [Effect.disconnectProcessor] else []
  let e3 := if s.mediaStreamSource then [Effect.disconnectSource] else []
  ({ s with mediaStream := false, scriptProcessor := false, mediaStreamSource := false },
    e1 ++ e2 ++ e3)

/-- Source `handleStopListening`: status to idle, stop microphone and playback,
close the session if present, close each audio context unless already closed
(the refs are optional-chained, so null refs are no-ops). -/

def handleStopListening (s : AssistantState) : AssistantState × List Effect :=
  let s0 := { s with assistantStatus := AssistantStatus.idle }
  let p1 := stopMicrophone s0
  let p2 := stopAudioPlayback p1.1
  let p3 :=
    if p2.1.sessionActive then ({ p2.1 with sessionActive := false }, [Effect.closeSession])
    else (p2.1, [])
  let p4 :=
    match p3.1.inputCtx with
    | some CtxState.running => ({ p3.1 with inputCtx := some CtxState.closed }, [Effect.closeInputCtx])
    | _ => (p3.1, [])
  let p5 :=
    match p4.1.outputCtx with
    | some CtxState.running => ({ p4.1 with outputCtx := some CtxState.closed }, [Effect.closeOutputCtx])
    | _ => (p4.1, [])
  (p5.1, p1.2 ++ p2.2 ++ p3.2 ++ p4.2 ++ p5.2)

/-- JavaScript truthiness of an optional string: present and non-empty. -/

def strTruthy : Option (List Char) → Bool
  | some (_ :: _) => true
  | _ => false

def scGet (m : LiveServerMessage) : ServerContent := m.serverContent.getD emptyContent

/-- JavaScript `String.prototype.trim()`: strip leading and trailing
whitespace. -/

def jsTrim (s : String) : String :=
  String.mk (((s.toList.dropWhile Char.isWhitespace).reverse.dropWhile Char.isWhitespace).reverse)

/-- The status block at the top of `onmessage`: turn boundaries reset to
`listening` (stopping playback on an interruption), agent output switches to
`processing`. -/

def statusPhase (s : AssistantState) (sc : ServerContent) : AssistantState × List Effect :=
  if sc.turnComplete || sc.interrupted then
    let p := if sc.interrupted then stopAudioPlayback s else (s, [])
    ({ p.1 with assistantStatus := AssistantStatus.listening }, p.2)
  else if sc.outputTranscription.isSome || strTruthy sc.modelTurnAudio then
    ({ s with assistantStatus := AssistantStatus.processing }, [])
  else (s, [])

/-- Fragment accumulation: `+=` onto the per-speaker ref buffers. -/

def transcriptionPhase (s : AssistantState) (sc : ServerContent) : AssistantState :=
  let s1 :=
    match sc.inputTranscription with
    | some t => { s with currentInputTranscription := s.currentInputTranscription ++ t }
    | none => s
  match sc.outputTranscription with
  | some t => { s1 with currentOutputTranscription := s1.currentOutputTranscription ++ t }
  | none => s1

/-- The `turnComplete` flush: trim both buffers, append user then agent entry
when non-empty, clear both buffers. -/

def flushPhase (s : AssistantState) (sc : ServerContent) : AssistantState :=
  if sc.turnComplete then
    let fullInput := jsTrim s.currentInputTranscription
    let fullOutput := jsTrim s.currentOutputTranscription
    let h1 :=
      if fullInput ≠ "" then s.transcriptionHistory ++ [⟨Speaker.user, fullInput⟩]
      else s.transcriptionHistory
    let h2 := if fullOutput ≠ "" then h1 ++ [⟨Speaker.agent, fullOutput⟩] else h1
    { s with
        transcriptionHistory := h2
        currentInputTranscription := ""
        currentOutputTranscription := "" }
  else s

/-- One iteration of the tool-call loop: the if/else name chain computes the
result (invoking a host capability for known names, leaving `''` otherwise),
then the response is sent whenever the session promise is set — the send is
not guarded by the name check. -/

def dispatchTool (host : Host) (fc : FunctionCall) : String × List Effect :=
  if fc.name = "openApp" then (host.openApp fc.args.appName, [Effect.callOpenApp fc.args.appName])
  else if fc.name = "closeApp" then (host.closeApp, [Effect.callCloseApp])
  else if fc.name = "getAppList" then (host.getAppList, [Effect.callGetAppList])
  else ("", [])

def processToolCalls (host : Host) (sessionActive : Bool) : List FunctionCall → List Effect
  | [] => []
  | fc :: rest =>
      let p := dispatchTool host fc
      let resp := if sessionActive then [Effect.sendToolResponse fc.id fc.name p.1] else []
      p.2 ++ resp ++ processToolCalls host sessionActive rest

/-- The audio-output block: when the chunk's base64 payload is truthy and the
output context exists, pull the cursor up to `now`, decode the chunk at
24 kHz mono, schedule a source at the cursor, advance the cursor by the
buffer's duration and register the source in the active set. -/

def audioPhase (s : AssistantState) (sc : ServerContent) (now : ℚ) : AssistantState × List Effect :=
  if strTruthy sc.modelTurnAudio && s.outputCtx.isSome then
    let nst := max s.nextStartTime now
    let buf := decodeAudioData (decode (sc.modelTurnAudio.getD [])) 24000 1
    let d := bufferDuration buf
    let h : Handle := ⟨nst, d⟩
    ({ s with nextStartTime := nst + d, outputSources := s.outputSources ++ [h] },
      [Effect.startSource h])
  else (s, [])

/-- Source `onmessage`: status block, transcription accumulation, turn flush,
tool-call loop, audio scheduling — in the source's order.  `now` is the output
context's `currentTime` when the message is handled. -/

def onmessage (host : Host) (s : AssistantState) (m : LiveServerMessage) (now : ℚ) :
    AssistantState × List Effect :=
  let sc := scGet m
  let p1 := statusPhase s sc
  let s2 := flushPhase (transcriptionPhase p1.1 sc) sc
  let e2 :=
    match m.toolCall with
    | some fcs => processToolCalls host s2.sessionActive fcs
    | none => []
  let p3 := audioPhase s2 sc now
  (p3.1, p1.2 ++ e2 ++ p3.2)

/-- The `ended` listener of a scheduled source: natural completion removes the
handle from the active set. -/

def onSourceEnded (s : AssistantState) (h : Handle) : AssistantState :=
  { s with outputSources := s.outputSources.erase h }

/-- Process a sequence of server messages in arrival order, each with the
output context's current time at that moment. -/

def runMessages (host : Host) (s : AssistantState) :
    List (LiveServerMessage × ℚ) → AssistantState × List Effect
  | [] => (s, [])
  | (m, now) :: rest =>
      let p := onmessage host s m now
      let q := runMessages host p.1 rest
      (q.1, p.2 ++ q.2)

/-- A concrete host for witnesses. -/

def hostW : Host :=
  ⟨fun n => String.append (String.append "Opening the " n) " app.", "Closing.", "Apps: none."⟩

/-! ### The playback-scheduling invariant (claim C1)

`SchedInv` states that every active handle ends no later than the cursor, the
handles are pairwise ordered end-before-start (hence non-overlapping), and the
last scheduled handle ends exactly at the cursor. -/

def SchedInv (s : AssistantState) : Prop :=
  (∀ h ∈ s.outputSources, h.start + h.dur ≤ s.nextStartTime)
  ∧ s.outputSources.Pairwise (fun a b => a.start + a.dur ≤ b.start)
  ∧ (∀ h, s.outputSources.getLast? = some h → h.start + h.dur = s.nextStartTime)

/-! ### The host capability `handleOpenAppByName` (claim C10)

`APP_DEFINITIONS_CONFIG` lives in a module not part of the analysed sources, so
the app list is universally quantified.  The result records the reply string
and which app (if any) `handleAppOpen` was triggered for — `none` means the
active-app state and interaction history are untouched. -/

structure AppDefinition where
  id : String
  name : String
deriving DecidableEq

structure OpenAppResult where
  opened : Option AppDefinition
  reply : String
deriving DecidableEq

/-- JavaScript `String.prototype.toLowerCase()` on the char list. -/

def jsToLowerCase (s : String) : String := String.mk (s.toList.map Char.toLower)

def apostrophe : String := String.singleton (Char.ofNat 39)

/-- Source `handleOpenAppByName`: find an app whose lowercased name equals the
lowercased-and-trimmed request; if it is already the active app, answer
"already open" without re-opening; if found, open it; otherwise apologise. -/

def handleOpenAppByName (apps : List AppDefinition) (activeApp : Option AppDefinition)
    (appName : String) : OpenAppResult :=
  match apps.find? (fun app => jsToLowerCase app.name == jsTrim (jsToLowerCase appName)) with
  | some appToOpen =>
      if (match activeApp with
          | some a => a.id == appToOpen.id
          | none => false) then
        ⟨none, "The " ++ appName ++ " app is already open."⟩
      else
        ⟨some appToOpen, "Opening the " ++ appName ++ " app."⟩
  | none =>
      ⟨none, "Sorry, I couldn" ++ apostrophe ++ "t find an app named \"" ++ appName ++ "\"."⟩

theorem b64inv_b64tbl : ∀ n < 64, b64inv (b64tbl n) = n := by decide

theorem b64tbl_ne_pad : ∀ n < 64, b64tbl n ≠ '=' := by decide

theorem charCode_inverse : ∀ n < 256, (Char.ofNat n).toNat = n := by decide

theorem map_charCode_inverse (l : List Nat) (h : ∀ x ∈ l, x < 256) :
    (l.map Char.ofNat).map Char.toNat = l := by
  induction l with
  | nil => simp
  | cons a t ih =>
      simp only [List.map_cons, List.cons.injEq]
      constructor
      · exact charCode_inverse a (h a (by simp))
      · exact ih (fun x hx => h x (by simp [hx]))

theorem b64decode_b64encode (bs : List Nat) (h : ∀ x ∈ bs, x < 256) :
    b64decodeBytes (b64encodeBytes bs) = bs := by
  induction bs using b64encodeBytes.induct with
  | case1 => simp [b64encodeBytes, b64decodeBytes]
  | case2 a =>
      have ha : a < 256 := h a (by simp)
      have h0 : a / 4 < 64 := by omega
      have h1 : a % 4 * 16 < 64 := by omega
      simp only [b64encodeBytes, b64decodeBytes]
      simp only [if_pos trivial, reduceIte]
      rw [b64inv_b64tbl _ h0, b64inv_b64tbl _ h1]
      simp only [List.cons.injEq, and_true]
      omega
  | case3 a b =>
      have ha : a < 256 := h a (by simp)
      have hb : b < 256 := h b (by simp)
      have h0 : a / 4 < 64 := by omega
      have h1 : a % 4 * 16 + b / 16 < 64 := by omega
      have h2 : b % 16 * 4 < 64 := by omega
      simp only [b64encodeBytes, b64decodeBytes]
      rw [if_neg (b64tbl_ne_pad _ h2)]
      simp only [reduceIte]
      rw [b64inv_b64tbl _ h0, b64inv_b64tbl _ h1, b64inv_b64tbl _ h2]
      simp only [List.cons.injEq, and_true]
      exact ⟨by omega, by omega⟩
  | case4 a b c rest ih =>
      have ha : a < 256 := h a (by simp)
      have hb : b < 256 := h b (by simp)
      have hc : c < 256 := h c (by simp)
      have h0 : a / 4 < 64 := by omega
      have h1 : a % 4 * 16 + b / 16 < 64 := by omega
      have h2 : b % 16 * 4 + c / 64 < 64 := by omega
      have h3 : c % 64 < 64 := by omega
      have hrest : ∀ x ∈ rest, x < 256 := fun x hx => h x (by simp [hx])
      simp only [b64encodeBytes, b64decodeBytes]
      rw [if_neg (b64tbl_ne_pad _ h2), if_neg (b64tbl_ne_pad _ h3)]
      rw [b64inv_b64tbl _ h0, b64inv_b64tbl _ h1, b64inv_b64tbl _ h2, b64inv_b64tbl _ h3,
        ih hrest]
      simp only [List.cons.injEq, and_true]
      exact ⟨by omega, by omega, by omega⟩

/-- Claim C9: the base64 audio helpers form a round trip: for every byte array
`b` (entries below 256, as produced by a `Uint8Array`), `decode (encode b) = b`. -/

theorem decode_encode_roundtrip (bs : List Nat) (h : ∀ x ∈ bs, x < 256) :
    decode (encode bs) = bs := by
  unfold decode encode btoa atob
  rw [map_charCode_inverse bs h, b64decode_b64encode bs h, map_charCode_inverse bs h]

/-- Witness for C9 at the concrete byte array `[0, 1, 127, 255, 16]`. -/

theorem decode_encode_roundtrip_witness :
    (∀ x ∈ [0, 1, 127, 255, 16], x < 256) ∧ decode (encode [0, 1, 127, 255, 16]) = [0, 1, 127, 255, 16] :=
  ⟨by decide, decode_encode_roundtrip [0, 1, 127, 255, 16] (by decide)⟩

/-- Claim C5: capture encoding multiplies by 32768 and truncates with no
clamping: `0.5` encodes to `16384`, `-1.0` encodes to `-32768`, and any sample
at or above `1.0` scales past the 16-bit maximum `32767` (overflow). -/

theorem createBlob_scaling :
    createBlob [1 / 2, -1] = ⟨[16384, -32768], "audio/pcm;rate=16000"⟩
    ∧ ∀ x : ℚ, 1 ≤ x → 32767 < ratTrunc (x * 32768) := by
  constructor
  · simp only [createBlob, List.map_cons, List.map_nil, BlobModel.mk.injEq, and_true,
      List.cons.injEq, List.nil_eq, and_true]
    norm_num [createBlobSample, ratTrunc, toInt16, Rat.num_neg_eq_neg_num, Rat.den_neg_eq_den]
  · intro x hx
    have h1 : (32768 : ℚ) ≤ x * 32768 := by nlinarith
    have h0 : (0 : ℚ) ≤ x * 32768 := by linarith
    have hnum : 0 ≤ (x * 32768).num := Rat.num_nonneg.mpr h0
    rw [ratTrunc, Int.tdiv_eq_ediv hnum (by positivity)]
    have hfl : (32768 : Int) ≤ ⌊x * 32768⌋ := Int.le_floor.mpr (by exact_mod_cast h1)
    rw [Rat.floor_def] at hfl
    omega

/-- Witness for C5: the overflow bound applied at the concrete sample `1`. -/

theorem createBlob_scaling_witness :
    (1 : ℚ) ≤ 1 ∧ 32767 < ratTrunc ((1 : ℚ) * 32768) :=
  ⟨le_refl 1, createBlob_scaling.2 1 (le_refl 1)⟩

/-! ### Claims about the message handler -/

/-- Claim C8: processing an `Interrupted` event leaves both per-speaker
transcript accumulation buffers (and the finalized history) unchanged — the
interrupted branch flushes playback and changes status only. -/

theorem interrupted_preserves_buffers (host : Host) (s : AssistantState) (now : ℚ) :
    (onmessage host s interruptedMsg now).1.currentInputTranscription
        = s.currentInputTranscription
    ∧ (onmessage host s interruptedMsg now).1.currentOutputTranscription
        = s.currentOutputTranscription
    ∧ (onmessage host s interruptedMsg now).1.transcriptionHistory = s.transcriptionHistory := by
  cases h : s.outputCtx.isSome <;>
    simp [onmessage, interruptedMsg, scGet, statusPhase, transcriptionPhase, flushPhase,
      audioPhase, stopAudioPlayback, strTruthy, h]

/-- Claim C4: on `TurnComplete` with both trimmed buffers non-empty, the
finalized transcript history is extended with exactly the trimmed user entry
immediately followed by the trimmed agent entry, and both buffers are cleared. -/

theorem turnComplete_finalizes (host : Host) (s : AssistantState) (now : ℚ)
    (h1 : jsTrim s.currentInputTranscription ≠ "")
    (h2 : jsTrim s.currentOutputTranscription ≠ "") :
    (onmessage host s turnCompleteMsg now).1.transcriptionHistory
        = s.transcriptionHistory
            ++ [⟨Speaker.user, jsTrim s.currentInputTranscription⟩,
                ⟨Speaker.agent, jsTrim s.currentOutputTranscription⟩]
    ∧ (onmessage host s turnCompleteMsg now).1.currentInputTranscription = ""
    ∧ (onmessage host s turnCompleteMsg now).1.currentOutputTranscription = "" := by
  simp [onmessage, turnCompleteMsg, scGet, statusPhase, transcriptionPhase, flushPhase,
    audioPhase, strTruthy, h1, h2]

/-- Witness for C4 at concrete buffers `" hi "` / `" there "`. -/

theorem turnComplete_finalizes_witness :
    (jsTrim " hi " ≠ "" ∧ jsTrim " there " ≠ "")
    ∧ (onmessage hostW
          { startedState with
              currentInputTranscription := " hi "
              currentOutputTranscription := " there " } turnCompleteMsg 0).1.transcriptionHistory
        = startedState.transcriptionHistory
            ++ [⟨Speaker.user, jsTrim " hi "⟩, ⟨Speaker.agent, jsTrim " there "⟩] :=
  ⟨⟨by decide, by decide⟩,
    (turnComplete_finalizes hostW
      { startedState with
          currentInputTranscription := " hi "
          currentOutputTranscription := " there " } 0 (by decide) (by decide)).1⟩

/-- Claim C2: an `Interrupted` event stops every source in the active set,
empties the set, and resets the cursor to 0; the next `AudioChunk` after it
(handled at a non-negative time `now2`) is scheduled at `max 0 now2 = now2`. -/

theorem interrupted_flush (host : Host) (s : AssistantState) (now now2 : ℚ) (data : List Char)
    (hctx : s.outputCtx.isSome = true) (hnow : 0 ≤ now2)
    (hdata : strTruthy (some data) = true) :
    (onmessage host s interruptedMsg now).1.outputSources = []
    ∧ (onmessage host s interruptedMsg now).1.nextStartTime = 0
    ∧ (onmessage host s interruptedMsg now).2 = s.outputSources.map Effect.stopSource
    ∧ (onmessage host (onmessage host s interruptedMsg now).1 (audioMsg data) now2).1.outputSources
        = [⟨now2, bufferDuration (decodeAudioData (decode data) 24000 1)⟩] := by
  have hmax : max (0 : ℚ) now2 = now2 := max_eq_right hnow
  cases data with
  | nil => exact absurd hdata (by decide)
  | cons c cs =>
      simp [onmessage, interruptedMsg, audioMsg, scGet, statusPhase, transcriptionPhase,
        flushPhase, audioPhase, stopAudioPlayback, strTruthy, hctx, hmax]

/-- Witness for C2 with one active handle and a concrete chunk. -/

theorem interrupted_flush_witness :
    ((some CtxState.running).isSome = true ∧ (0 : ℚ) ≤ 0
        ∧ strTruthy (some (String.toList "AAAA")) = true)
    ∧ (onmessage hostW { startedState with outputSources := [⟨0, 1⟩] } interruptedMsg 0).2
        = [⟨(0 : ℚ), 1⟩].map Effect.stopSource :=
  ⟨⟨rfl, le_refl 0, rfl⟩,
    (interrupted_flush hostW { startedState with outputSources := [⟨0, 1⟩] } 0 0
      (String.toList "AAAA") rfl (le_refl 0) rfl).2.2.1⟩

/-- Counterexample to claim C3: the response send is not guarded by the
name check, so a `ToolCallRequest` with the unknown name `"fooBar"` still
produces exactly one `ToolResult` (with empty result string) — the count of
responses sent is 1, not 0. -/

theorem unknown_tool_counterexample :
    (onmessage hostW startedState (toolMsg [⟨"7", "fooBar", ⟨""⟩⟩]) 0).2
      = [Effect.sendToolResponse "7" "fooBar" ""] := by
  simp [onmessage, toolMsg, scGet, emptyContent, statusPhase, transcriptionPhase, flushPhase,
    audioPhase, strTruthy, processToolCalls, dispatchTool, startedState, hostW]

/-- Claim C3 (amended): for a `ToolCallRequest` whose name is outside the known
set, no host capability is invoked, but — whenever the session promise is set —
exactly one `ToolResult` echoing the request's id and name is sent, carrying
the empty result string. -/

theorem unknown_tool_amended (host : Host) (s : AssistantState) (fc : FunctionCall) (now : ℚ)
    (h1 : fc.name ≠ "openApp") (h2 : fc.name ≠ "closeApp") (h3 : fc.name ≠ "getAppList")
    (hsess : s.sessionActive = true) :
    (onmessage host s (toolMsg [fc]) now).2 = [Effect.sendToolResponse fc.id fc.name ""] := by
  simp [onmessage, toolMsg, scGet, emptyContent, statusPhase, transcriptionPhase, flushPhase,
    audioPhase, strTruthy, processToolCalls, dispatchTool, h1, h2, h3, hsess]

/-- Witness for the amended C3 at the concrete unknown name `"doDance"`. -/

theorem unknown_tool_amended_witness :
    (onmessage hostW startedState (toolMsg [⟨"9", "doDance", ⟨""⟩⟩]) 0).2
      = [Effect.sendToolResponse "9" "doDance" ""] :=
  unknown_tool_amended hostW startedState ⟨"9", "doDance", ⟨""⟩⟩ 0
    (by decide) (by decide) (by decide) rfl

/-- Claim C6: for a `ToolCallRequest` with a known name, exactly one
`ToolResult` is sent, echoing the request's id and name; for `openApp` the
host's open-app capability is invoked with the request's `appName` argument and
the result string is that capability's return value (similarly for `closeApp`
and `getAppList`). -/

theorem known_tool_dispatch (host : Host) (s : AssistantState) (fc : FunctionCall) (now : ℚ)
    (hsess : s.sessionActive = true)
    (_hknown : fc.name = "openApp" ∨ fc.name = "closeApp" ∨ fc.name = "getAppList") :
    (fc.name = "openApp" →
      (onmessage host s (toolMsg [fc]) now).2
        = [Effect.callOpenApp fc.args.appName,
           Effect.sendToolResponse fc.id fc.name (host.openApp fc.args.appName)])
    ∧ (fc.name = "closeApp" →
      (onmessage host s (toolMsg [fc]) now).2
        = [Effect.callCloseApp, Effect.sendToolResponse fc.id fc.name host.closeApp])
    ∧ (fc.name = "getAppList" →
      (onmessage host s (toolMsg [fc]) now).2
        = [Effect.callGetAppList, Effect.sendToolResponse fc.id fc.name host.getAppList]) := by
  refine ⟨fun hn => ?_, fun hn => ?_, fun hn => ?_⟩ <;>
    simp [onmessage, toolMsg, scGet, emptyContent, statusPhase, transcriptionPhase, flushPhase,
      audioPhase, strTruthy, processToolCalls, dispatchTool, hn, hsess]

/-- Witness for C6: the claim's example request
`{id: "42", name: "openApp", args: {appName: "System"}}`. -/

theorem known_tool_dispatch_witness :
    (onmessage hostW startedState (toolMsg [⟨"42", "openApp", ⟨"System"⟩⟩]) 0).2
      = [Effect.callOpenApp "System",
         Effect.sendToolResponse "42" "openApp" (hostW.openApp "System")] :=
  (known_tool_dispatch hostW startedState ⟨"42", "openApp", ⟨"System"⟩⟩ 0 rfl
    (Or.inl rfl)).1 rfl

theorem bufferDuration_nonneg (b : AudioBufferModel) : 0 ≤ bufferDuration b := by
  unfold bufferDuration
  positivity

theorem statusPhase_schedInv (s : AssistantState) (sc : ServerContent) (h : SchedInv s) :
    SchedInv (statusPhase s sc).1 := by
  unfold statusPhase stopAudioPlayback
  split
  · split
    · split
      · exact ⟨by simp, by simp, by simp⟩
      · exact ⟨h.1, h.2.1, h.2.2⟩
    · exact ⟨h.1, h.2.1, h.2.2⟩
  · split
    · exact ⟨h.1, h.2.1, h.2.2⟩
    · exact h

theorem transcriptionPhase_sources (s : AssistantState) (sc : ServerContent) :
    (transcriptionPhase s sc).outputSources = s.outputSources
    ∧ (transcriptionPhase s sc).nextStartTime = s.nextStartTime := by
  unfold transcriptionPhase
  cases sc.inputTranscription <;> cases sc.outputTranscription <;> simp

theorem flushPhase_sources (s : AssistantState) (sc : ServerContent) :
    (flushPhase s sc).outputSources = s.outputSources
    ∧ (flushPhase s sc).nextStartTime = s.nextStartTime := by
  unfold flushPhase
  split <;> simp

theorem audioPhase_schedInv (s : AssistantState) (sc : ServerContent) (now : ℚ)
    (h : SchedInv s) : SchedInv (audioPhase s sc now).1 := by
  unfold audioPhase
  split
  · refine ⟨?_, ?_, ?_⟩
    · intro hd hmem
      simp only [List.mem_append, List.mem_singleton] at hmem
      rcases hmem with hmem | rfl
      · have h1 : hd.start + hd.dur ≤ s.nextStartTime := h.1 hd hmem
        have h2 : s.nextStartTime ≤ max s.nextStartTime now := le_max_left _ _
        have h3 := bufferDuration_nonneg (decodeAudioData (decode (sc.modelTurnAudio.getD [])) 24000 1)
        simp only
        linarith
      · simp only
        linarith
    · simp only
      rw [List.pairwise_append]
      refine ⟨h.2.1, List.pairwise_singleton _ _, ?_⟩
      intro a ha b hb
      simp only [List.mem_singleton] at hb
      subst hb
      have h1 : a.start + a.dur ≤ s.nextStartTime := h.1 a ha
      have h2 : s.nextStartTime ≤ max s.nextStartTime now := le_max_left _ _
      simp only
      linarith
    · intro hd hlast
      simp only at hlast ⊢
      rw [List.getLast?_concat] at hlast
      cases hlast
      rfl
  · exact h

theorem onmessage_schedInv (host : Host) (s : AssistantState) (m : LiveServerMessage) (now : ℚ)
    (h : SchedInv s) : SchedInv (onmessage host s m now).1 := by
  unfold onmessage
  apply audioPhase_schedInv
  have h1 := statusPhase_schedInv s (scGet m) h
  have h2 := transcriptionPhase_sources (statusPhase s (scGet m)).1 (scGet m)
  have h3 := flushPhase_sources (transcriptionPhase (statusPhase s (scGet m)).1 (scGet m)) (scGet m)
  unfold SchedInv at h1 ⊢
  rw [h3.1, h3.2, h2.1, h2.2]
  exact h1

theorem runMessages_schedInv (host : Host) (s : AssistantState)
    (msgs : List (LiveServerMessage × ℚ)) (h : SchedInv s) :
    SchedInv (runMessages host s msgs).1 := by
  induction msgs generalizing s with
  | nil => exact h
  | cons p rest ih =>
      obtain ⟨m, now⟩ := p
      exact ih _ (onmessage_schedInv host s m now h)

theorem stopAudioPlayback_outputCtx (s : AssistantState) :
    (stopAudioPlayback s).1.outputCtx = s.outputCtx := by
  unfold stopAudioPlayback
  split <;> rfl

theorem statusPhase_outputCtx (s : AssistantState) (sc : ServerContent) :
    (statusPhase s sc).1.outputCtx = s.outputCtx := by
  unfold statusPhase
  split
  · split <;> simp [stopAudioPlayback_outputCtx]
  · split <;> rfl

theorem transcriptionPhase_outputCtx (s : AssistantState) (sc : ServerContent) :
    (transcriptionPhase s sc).outputCtx = s.outputCtx := by
  unfold transcriptionPhase
  cases sc.inputTranscription <;> cases sc.outputTranscription <;> simp

theorem flushPhase_outputCtx (s : AssistantState) (sc : ServerContent) :
    (flushPhase s sc).outputCtx = s.outputCtx := by
  unfold flushPhase
  split <;> rfl

theorem audioPhase_outputCtx (s : AssistantState) (sc : ServerContent) (now : ℚ) :
    (audioPhase s sc now).1.outputCtx = s.outputCtx := by
  unfold audioPhase
  split <;> rfl

theorem onmessage_outputCtx (host : Host) (s : AssistantState) (m : LiveServerMessage) (now : ℚ) :
    (onmessage host s m now).1.outputCtx = s.outputCtx := by
  simp only [onmessage]
  rw [audioPhase_outputCtx, flushPhase_outputCtx, transcriptionPhase_outputCtx,
    statusPhase_outputCtx]

theorem runMessages_outputCtx (host : Host) (s : AssistantState)
    (msgs : List (LiveServerMessage × ℚ)) :
    (runMessages host s msgs).1.outputCtx = s.outputCtx := by
  induction msgs generalizing s with
  | nil => rfl
  | cons p rest ih =>
      obtain ⟨m, now⟩ := p
      rw [runMessages]
      rw [ih, onmessage_outputCtx]

theorem statusPhase_cursor_nonneg (s : AssistantState) (sc : ServerContent)
    (h : 0 ≤ s.nextStartTime) : 0 ≤ (statusPhase s sc).1.nextStartTime := by
  unfold statusPhase stopAudioPlayback
  split
  · split
    · split <;> simp [h]
    · exact h
  · split <;> exact h

theorem audioPhase_cursor_nonneg (s : AssistantState) (sc : ServerContent) (now : ℚ)
    (h : 0 ≤ s.nextStartTime) : 0 ≤ (audioPhase s sc now).1.nextStartTime := by
  unfold audioPhase
  split
  · have hd := bufferDuration_nonneg (decodeAudioData (decode (sc.modelTurnAudio.getD [])) 24000 1)
    have hm : s.nextStartTime ≤ max s.nextStartTime now := le_max_left _ _
    simp only
    linarith
  · exact h

theorem onmessage_cursor_nonneg (host : Host) (s : AssistantState) (m : LiveServerMessage)
    (now : ℚ) (h : 0 ≤ s.nextStartTime) : 0 ≤ (onmessage host s m now).1.nextStartTime := by
  simp only [onmessage]
  apply audioPhase_cursor_nonneg
  rw [(flushPhase_sources _ _).2, (transcriptionPhase_sources _ _).2]
  exact statusPhase_cursor_nonneg s (scGet m) h

theorem runMessages_cursor_nonneg (host : Host) (s : AssistantState)
    (msgs : List (LiveServerMessage × ℚ)) (h : 0 ≤ s.nextStartTime) :
    0 ≤ (runMessages host s msgs).1.nextStartTime := by
  induction msgs generalizing s with
  | nil => exact h
  | cons p rest ih =>
      obtain ⟨m, now⟩ := p
      exact ih _ (onmessage_cursor_nonneg host s m now h)

/-- Claim C1: over any sequence of server messages with no `Interrupted`
(processed in order from a freshly started session), the scheduled handles are
pairwise non-overlapping — each handle ends no later than the next begins —
and a further `AudioChunk` arriving while the cursor is at or ahead of `now`
is scheduled to start exactly at the cursor (which equals the previous
handle's scheduled end), i.e. playback is gapless. -/

theorem playback_no_overlap_gapless (host : Host) (msgs : List (LiveServerMessage × ℚ))
    (_hni : ∀ p ∈ msgs, (scGet p.1).interrupted = false) :
    ((runMessages host startedState msgs).1.outputSources.Pairwise
        fun a b => a.start + a.dur ≤ b.start)
    ∧ (∀ h, (runMessages host startedState msgs).1.outputSources.getLast? = some h →
        h.start + h.dur = (runMessages host startedState msgs).1.nextStartTime)
    ∧ ∀ (data : List Char) (now : ℚ), strTruthy (some data) = true →
        now ≤ (runMessages host startedState msgs).1.nextStartTime →
        (onmessage host (runMessages host startedState msgs).1 (audioMsg data) now).1.outputSources
          = (runMessages host startedState msgs).1.outputSources
              ++ [⟨(runMessages host startedState msgs).1.nextStartTime,
                   bufferDuration (decodeAudioData (decode data) 24000 1)⟩] := by
  have hinv : SchedInv (runMessages host startedState msgs).1 :=
    runMessages_schedInv host startedState msgs ⟨by simp [startedState], by simp [startedState],
      by simp [startedState]⟩
  refine ⟨hinv.2.1, hinv.2.2, ?_⟩
  intro data now hdata hnow
  have hctx : (runMessages host startedState msgs).1.outputCtx = some CtxState.running := by
    rw [runMessages_outputCtx]
    rfl
  have hmax : max (runMessages host startedState msgs).1.nextStartTime now
      = (runMessages host startedState msgs).1.nextStartTime := max_eq_left hnow
  cases data with
  | nil => exact absurd hdata (by decide)
  | cons c cs =>
      simp [onmessage, audioMsg, scGet, statusPhase, transcriptionPhase, flushPhase,
        audioPhase, strTruthy, hctx, hmax]

/-- Witness for C1: two concrete audio chunks at time 0, then one more chunk. -/

theorem playback_no_overlap_gapless_witness :
    ((runMessages hostW startedState
        [(audioMsg (String.toList "AAAA"), 0), (audioMsg (String.toList "AAAA"), 0)]).1.outputSources.Pairwise
          fun a b => a.start + a.dur ≤ b.start)
    ∧ (onmessage hostW
        (runMessages hostW startedState
          [(audioMsg (String.toList "AAAA"), 0), (audioMsg (String.toList "AAAA"), 0)]).1
        (audioMsg (String.toList "AAAA")) 0).1.outputSources
      = (runMessages hostW startedState
          [(audioMsg (String.toList "AAAA"), 0), (audioMsg (String.toList "AAAA"), 0)]).1.outputSources
          ++ [⟨(runMessages hostW startedState
                  [(audioMsg (String.toList "AAAA"), 0), (audioMsg (String.toList "AAAA"), 0)]).1.nextStartTime,
               bufferDuration (decodeAudioData (decode (String.toList "AAAA")) 24000 1)⟩] :=
  ⟨(playback_no_overlap_gapless hostW
      [(audioMsg (String.toList "AAAA"), 0), (audioMsg (String.toList "AAAA"), 0)]
      (by decide)).1,
    (playback_no_overlap_gapless hostW
      [(audioMsg (String.toList "AAAA"), 0), (audioMsg (String.toList "AAAA"), 0)]
      (by decide)).2.2 (String.toList "AAAA") 0 (by decide)
      (runMessages_cursor_nonneg hostW startedState
        [(audioMsg (String.toList "AAAA"), 0), (audioMsg (String.toList "AAAA"), 0)]
        (by simp [startedState]))⟩

/-- Claim C10: the open-app capability matches case-insensitively after
trimming; when the matched app is already active it replies
"The {appName} app is already open." and opens nothing; when no app matches it
replies "Sorry, I couldn't find an app named \"{appName}\"." and opens
nothing. -/

theorem openAppByName_behavior (apps : List AppDefinition) (activeApp : Option AppDefinition)
    (appName : String) (a appToOpen : AppDefinition) :
    (apps.find? (fun app => jsToLowerCase app.name == jsTrim (jsToLowerCase appName))
          = some appToOpen →
      activeApp = some a → a.id = appToOpen.id →
      handleOpenAppByName apps activeApp appName
        = ⟨none, "The " ++ appName ++ " app is already open."⟩)
    ∧ ((∀ app ∈ apps, jsToLowerCase app.name ≠ jsTrim (jsToLowerCase appName)) →
      handleOpenAppByName apps activeApp appName
        = ⟨none, "Sorry, I couldn" ++ apostrophe ++ "t find an app named \""
            ++ appName ++ "\"."⟩) := by
  constructor
  · intro hf ha hid
    subst ha
    unfold handleOpenAppByName
    rw [hf]
    simp [hid]
  · intro hnone
    have hf : apps.find? (fun app => jsToLowerCase app.name == jsTrim (jsToLowerCase appName))
        = none := by
      rw [List.find?_eq_none]
      intro x hx
      simp [hnone x hx]
    unfold handleOpenAppByName
    rw [hf]

/-- Witness for C10: a one-app desktop, the request `" SYSTEM "` against the
already-active app `System`, and the unmatched request `"Foo"`. -/

theorem openAppByName_behavior_witness :
    handleOpenAppByName [⟨"sys", "System"⟩] (some ⟨"sys", "System"⟩) " SYSTEM "
        = ⟨none, "The " ++ " SYSTEM " ++ " app is already open."⟩
    ∧ handleOpenAppByName [⟨"sys", "System"⟩] (some ⟨"sys", "System"⟩) "Foo"
        = ⟨none, "Sorry, I couldn" ++ apostrophe ++ "t find an app named \"" ++ "Foo" ++ "\"."⟩ :=
  ⟨(openAppByName_behavior [⟨"sys", "System"⟩] (some ⟨"sys", "System"⟩) " SYSTEM "
      ⟨"sys", "System"⟩ ⟨"sys", "System"⟩).1 (by decide) rfl rfl,
    (openAppByName_behavior [⟨"sys", "System"⟩] (some ⟨"sys", "System"⟩) "Foo"
      ⟨"sys", "System"⟩ ⟨"sys", "System"⟩).2 (by decide)⟩

/-- Claim C7: `handleStopListening` is idempotent and safe from any state: a
second consecutive stop performs no release effect and leaves the state
unchanged, and stopping the never-started component is a complete no-op. -/

theorem stop_idempotent (s : AssistantState) :
    (handleStopListening (handleStopListening s).1).1 = (handleStopListening s).1
    ∧ (handleStopListening (handleStopListening s).1).2 = []
    ∧ handleStopListening initialState = (initialState, []) := by
  refine ⟨?_, ?_, by rfl⟩ <;>
    · obtain ⟨st, ci, co, th, nst, os, sa, ms, sp, mss, ic, oc⟩ := s
      cases sa <;> cases ms <;> cases sp <;> cases mss <;>
        rcases ic with _ | (_ | _) <;> rcases oc with _ | (_ | _) <;>
        simp [handleStopListening, stopMicrophone, stopAudioPlayback]

end ZOS
